import Mathlib

/-!
Verification development for the Basic-PDF-Reader extraction pipeline
(`reader.py`).  The Python source is shallowly embedded: OCR and
orientation detection (external Tesseract calls) are modelled as oracles,
images as an inductive datatype, text as `List Char` (ASCII fragment of
Python `str`), and each regular expression of the source as an executable
scanning function with the exact semantics of CPython `re.findall` /
`re.search` / `re.split` on the concrete pattern.
-/

namespace PdfReader

/-- Python `\s` on the ASCII range: space, tab, newline, carriage return,
vertical tab, form feed. -/
def isPySpace (c : Char) : Bool :=
  c = ' ' || c = '\t' || c = '\n' || c = '\r' || c = '\x0b' || c = '\x0c'

/-- Python `\w` on the ASCII range: letters, digits, underscore. -/
def isWordChar (c : Char) : Bool :=
  c.isAlphanum || c = '_'

/-- The character left of the current scan position (`none` at the start of
the text).  All three patterns open with `\b` followed by a word character,
so the word-boundary test reduces to "previous char is absent or not a word
character". -/
def boundaryBefore : Option Char → Bool
  | none => true
  | some c => !isWordChar c

/-- String literal to character list. -/
def lc (s : String) : List Char := s.data

/-- Case-insensitive literal match (pattern given in lowercase), returning
the rest of the text after the literal.  Models a literal run of an
`re.IGNORECASE` pattern on ASCII text. -/
def matchCI : List Char → List Char → Option (List Char)
  | [], cs => some cs
  | _ :: _, [] => none
  | p :: ps, c :: cs => if c.toLower = p then matchCI ps cs else none

/-- Case-sensitive literal match, returning the rest of the text. -/
def matchExact : List Char → List Char → Option (List Char)
  | [], cs => some cs
  | _ :: _, [] => none
  | p :: ps, c :: cs => if c = p then matchExact ps cs else none

/-! ### `route_id_pattern = re.compile(r'\bRoute[:\s]*:?(\d{8})\b', re.IGNORECASE)`

At a fixed start position the pattern is deterministic: `[:\s]*` greedily
eats the maximal run of colons/whitespace; backtracking it (or the optional
`:?`) can only land back inside that run where `\d` fails, so the match
succeeds iff exactly-8-digits-then-non-word-char follow the run. -/

/-- Attempt `route_id_pattern` at the current position.  On success returns
the 8-digit capture and the rest of the text after the match. -/
def routeTry (prev : Option Char) (cs : List Char) : Option (List Char × List Char) :=
  if !boundaryBefore prev then none else
  match matchCI (lc "route") cs with
  | none => none
  | some rest1 =>
    let rest2 := rest1.dropWhile (fun c => c = ':' || isPySpace c)
    let cap := rest2.take 8
    let rest3 := rest2.drop 8
    if cap.length = 8 && cap.all Char.isDigit &&
        (match rest3 with
         | [] => true
         | c :: _ => !isWordChar c) then
      some (cap, rest3)
    else none

/-- Non-overlapping left-to-right scan (the semantics of `re.findall`):
advance one character on failure, continue after the match end on success.
`fuel` is initialised to the text length, which bounds the number of scan
steps. -/
def routeGo (fuel : Nat) (prev : Option Char) (cs : List Char) : List (List Char) :=
  match fuel, cs with
  | 0, _ => []
  | _, [] => []
  | fuel + 1, c :: rest =>
    match routeTry prev (c :: rest) with
    | some (cap, rest') => cap :: routeGo fuel cap.getLast? rest'
    | none => routeGo fuel (some c) rest

/-- `route_id_pattern.findall(text)`. -/
def route_id_findall (cs : List Char) : List (List Char) :=
  routeGo cs.length none cs

/-! ### `to_pattern = re.compile(r'\bTo\s+\d+\s+(\d{4})-([A-Za-z0-9\s\(\)]+)', re.IGNORECASE)`

Deterministic at a fixed start position: each `\s+`/`\d+` eats a maximal
nonempty run (shorter choices put a run character where the next atom must
match, which fails), `(\d{4})` takes the next four characters which must be
digits followed by `-`, and the final capture greedily takes the maximal
nonempty run of its class. -/

/-- Character class of the `to_pattern` store-name capture:
`[A-Za-z0-9\s\(\)]`. -/
def isToNameChar (c : Char) : Bool :=
  c.isAlphanum || isPySpace c || c = '(' || c = ')'

/-- Character class of the `xdock_wh_pattern` store-name capture:
`[A-Za-z0-9\s]`. -/
def isXNameChar (c : Char) : Bool :=
  c.isAlphanum || isPySpace c

/-- Attempt `to_pattern` at the current position.  On success returns the
(location number, store name) captures and the rest of the text. -/
def toTry (prev : Option Char) (cs : List Char) : Option ((List Char × List Char) × List Char) :=
  if !boundaryBefore prev then none else
  match matchCI (lc "to") cs with
  | none => none
  | some r1 =>
    match r1 with
    | [] => none
    | c1 :: _ =>
      if !isPySpace c1 then none else
      match r1.dropWhile isPySpace with
      | [] => none
      | c2 :: _ =>
        if !c2.isDigit then none else
        match (r1.dropWhile isPySpace).dropWhile Char.isDigit with
        | [] => none
        | c3 :: _ =>
          if !isPySpace c3 then none else
          let r4 := ((r1.dropWhile isPySpace).dropWhile Char.isDigit).dropWhile isPySpace
          let loc := r4.take 4
          if !(loc.length = 4 && loc.all Char.isDigit) then none else
          match r4.drop 4 with
          | '-' :: r6 =>
            let name := r6.takeWhile isToNameChar
            if name = [] then none
            else some ((loc, name), r6.dropWhile isToNameChar)
          | _ => none

/-- Attempt `xdock_wh_pattern = re.compile(r'\bX-Dock WH\s*:\s*(\d{4})-([A-Za-z0-9\s]+)', re.IGNORECASE)`
at the current position (same determinism argument as for `to_pattern`). -/
def xdockTry (prev : Option Char) (cs : List Char) : Option ((List Char × List Char) × List Char) :=
  if !boundaryBefore prev then none else
  match matchCI (lc "x-dock wh") cs with
  | none => none
  | some r1 =>
    match r1.dropWhile isPySpace with
    | ':' :: r3 =>
      let r4 := r3.dropWhile isPySpace
      let loc := r4.take 4
      if !(loc.length = 4 && loc.all Char.isDigit) then none else
      match r4.drop 4 with
      | '-' :: r6 =>
        let name := r6.takeWhile isXNameChar
        if name = [] then none
        else some ((loc, name), r6.dropWhile isXNameChar)
      | _ => none
    | _ => none

/-- Shared `re.findall` scan for the two pair-capturing patterns. -/
def pairGo (try1 : Option Char → List Char → Option ((List Char × List Char) × List Char))
    (fuel : Nat) (prev : Option Char) (cs : List Char) : List (List Char × List Char) :=
  match fuel, cs with
  | 0, _ => []
  | _, [] => []
  | fuel + 1, c :: rest =>
    match try1 prev (c :: rest) with
    | some ((loc, name), rest') => (loc, name) :: pairGo try1 fuel name.getLast? rest'
    | none => pairGo try1 fuel (some c) rest

/-- `to_pattern.findall(text)`. -/
def to_findall (cs : List Char) : List (List Char × List Char) :=
  pairGo toTry cs.length none cs

/-- `xdock_wh_pattern.findall(text)`. -/
def xdock_wh_findall (cs : List Char) : List (List Char × List Char) :=
  pairGo xdockTry cs.length none cs

/-! ### Store-name cleaning: `re.split(r'\sPhone', store_name)[0].strip()` -/

/-- Does `\sPhone` match at offset `i` of `cs`?  (A whitespace character
immediately followed by the case-sensitive literal `Phone`.) -/
def phoneMatchAt (cs : List Char) (i : Nat) : Bool :=
  match cs.drop i with
  | [] => false
  | c :: rest => isPySpace c && rest.take 5 = lc "Phone"

/-- Offset of the leftmost `\sPhone` match, if any. -/
def phoneIdx : List Char → Option Nat
  | [] => none
  | c :: rest =>
    if isPySpace c && rest.take 5 = lc "Phone" then some 0
    else (phoneIdx rest).map (· + 1)

/-- Python `str.strip()` on ASCII text. -/
def pyStrip (cs : List Char) : List Char :=
  ((cs.dropWhile isPySpace).reverse.dropWhile isPySpace).reverse

/-- `re.split(r'\sPhone', store_name)[0].strip()` (reader.py line 162). -/
def cleanStoreName (cs : List Char) : List Char :=
  match phoneIdx cs with
  | some i => pyStrip (cs.take i)
  | none => pyStrip cs

/-! ### Images and the external OCR engine

Pixel-level content is irrelevant to the extraction logic: the engine is an
oracle over images, so an image is just a term recording how it was derived
from a rasterized page. -/

/-- A page image: a rasterized page, a preprocessed derivative
(`preprocess_image` output), or a rotation (`PIL Image.rotate` with
`expand=True`). -/
inductive Img where
  | page (doc : Nat) (pageNo : Nat)
  | pre (i : Img)
  | rot (i : Img) (angle : Int)
deriving DecidableEq, Repr

/-- `preprocess_image`: grayscale, contrast 2, sharpen, threshold at 128.
The pixel transforms are abstracted into a derivation mark, since the OCR
engine consuming the result is an oracle. -/
def preprocess_image (i : Img) : Img := Img.pre i

/-- Outcome of raising `e` at reader.py line 76.  In Python 3 the
`except ... as e` target is unbound once the handler exits, so the `raise e`
after the loop raises (a `NameError`); the surrounding handler in
`extract_info_from_page` catches any exception alike. -/
inductive RaiseKind where
  | nameError
deriving DecidableEq, Repr

/-- `robust_image_to_osd` loop body: `osd attempt` is the outcome of the
`pytesseract.image_to_osd` call on attempt number `attempt` (0-based),
`n` the remaining attempts.  Returns (result, number of engine calls made,
list of sleep durations performed). -/
def robustGo (osd : Nat → Except (List Char) (List Char)) (delay : Nat) :
    Nat → Nat → Except RaiseKind (List Char) × Nat × List Nat
  | _, 0 => (.error .nameError, 0, [])
  | attempt, n + 1 =>
    match osd attempt with
    | .ok t => (.ok t, 1, [])
    | .error _ =>
      let r := robustGo osd delay (attempt + 1) n
      (r.1, r.2.1 + 1, delay :: r.2.2)

/-- `robust_image_to_osd(image, config, retries=3, delay=1)` (reader.py
lines 69–76), with the engine call modelled as the oracle `osd`. -/
def robust_image_to_osd (osd : Nat → Except (List Char) (List Char))
    (retries delay : Nat) : Except RaiseKind (List Char) × Nat × List Nat :=
  robustGo osd delay 0 retries

/-- `re.search(r'Rotate: (\d+)', osd)` capture attempt at the current
position: the case-sensitive literal `Rotate: ` followed by a maximal
nonempty digit run. -/
def rotTry (cs : List Char) : Option (List Char) :=
  match matchExact (lc "Rotate: ") cs with
  | none => none
  | some r =>
    let ds := r.takeWhile Char.isDigit
    if ds = [] then none else some ds

/-- Leftmost-match scan for `re.search(r'Rotate: (\d+)', osd)`. -/
def rotGo (fuel : Nat) (cs : List Char) : Option (List Char) :=
  match fuel, cs with
  | 0, _ => none
  | _, [] => none
  | fuel + 1, c :: rest =>
    match rotTry (c :: rest) with
    | some ds => some ds
    | none => rotGo fuel rest

/-- `int(re.search(r'Rotate: (\d+)', osd).group(1))`, as an `Option`
(`none` models the `AttributeError` raised by `.group` on a failed search,
which the surrounding handler catches). -/
def searchRotate (cs : List Char) : Option Nat :=
  (rotGo cs.length cs).map (fun ds => ds.foldl (fun a c => a * 10 + (c.toNat - 48)) 0)

/-- The orientation-correction stage of `extract_info_from_page`
(reader.py lines 106–121): run `robust_image_to_osd` (retries=3, delay=1),
parse the reported angle, rotate by its negation when nonzero; any failure
(all retries exhausted, or no `Rotate:` line in the OSD output) is caught
and the image is used uncorrected. -/
def orientationStage (osd : Nat → Except (List Char) (List Char)) (img : Img) : Img :=
  match (robust_image_to_osd osd 3 1).1 with
  | .error _ => img
  | .ok t =>
    match searchRotate t with
    | none => img
    | some r => if r ≠ 0 then Img.rot img (-(r : Int)) else img

/-- The external engine, as oracles: `ocr i` is the text
`pytesseract.image_to_string` returns on image `i`; `osd i k` is the
outcome of the `pytesseract.image_to_osd` call on image `i`, attempt `k`. -/
structure OcrEnv where
  ocr : Img → List Char
  osd : Img → Nat → Except (List Char) (List Char)

/-- One extracted record of a page, as appended at reader.py line 164. -/
structure PageRec where
  routeID : List Char
  locationNumber : List Char
  storeName : List Char
deriving DecidableEq, Repr

/-- The location/store pair the route loop uses: first X-Dock WH match if
any, else first To match if any, else none (reader.py lines 152–158). -/
def pickLocStore (toM xdockM : List (List Char × List Char)) :
    Option (List Char × List Char) :=
  match xdockM with
  | x :: _ => some x
  | [] =>
    match toM with
    | t :: _ => some t
    | [] => none

/-- Body of the route loop for one route match (reader.py lines 147–164):
`if location_number and store_name` is Python truthiness, i.e. both strings
nonempty; the store name is cleaned before being recorded. -/
def combineOne (pick : Option (List Char × List Char)) (routeId : List Char) :
    Option PageRec :=
  match pick with
  | none => none
  | some (ln, sn) =>
    if ln = [] ∨ sn = [] then none
    else some ⟨routeId, ln, cleanStoreName sn⟩

/-- The whole route loop (reader.py lines 147–164). -/
def combineMatches (routeM : List (List Char)) (toM xdockM : List (List Char × List Char)) :
    List PageRec :=
  routeM.filterMap (combineOne (pickLocStore toM xdockM))

/-- `extract_info_from_page(page_image, pdf_path, page_number)` (reader.py
lines 98–186): orientation-correct, OCR, pattern-match; if no route match,
rotate 180° once, re-OCR and replace all three match lists; then run the
route loop.  Logging and temp-file cleanup have no bearing on the result. -/
def extract_info_from_page (env : OcrEnv) (img : Img) : List PageRec :=
  let corrected := orientationStage (env.osd img) img
  let t1 := env.ocr corrected
  if route_id_findall t1 = [] then
    let t2 := env.ocr (Img.rot corrected 180)
    combineMatches (route_id_findall t2) (to_findall t2) (xdock_wh_findall t2)
  else
    combineMatches (route_id_findall t1) (to_findall t1) (xdock_wh_findall t1)

/-- Python `str.upper()` on ASCII text. -/
def pyUpper (cs : List Char) : List Char := cs.map Char.toUpper

/-- One row of the result table, as built at reader.py lines 235–241. -/
structure FullRec where
  routeID : List Char
  locationNumber : List Char
  storeName : List Char
  pdf : List Char
  pageNumber : Nat
deriving DecidableEq, Repr

/-- One input PDF: its basename, its rasterized pages, and whether
`convert_from_path` succeeds on it (`ok = false` models a document-level
rasterization failure, caught at reader.py lines 244–246). -/
structure Doc where
  name : List Char
  pages : List Img
  ok : Bool

/-- `extract_route_and_store_ids(pdf_path)` (reader.py lines 221–248):
rasterize, then per page (numbered from 1) preprocess, extract, and wrap
each match into a result row (`route_id.upper()` applied). -/
def extract_route_and_store_ids (env : OcrEnv) (doc : Doc) : List FullRec :=
  if doc.ok then
    (doc.pages.enumFrom 1).flatMap fun pg =>
      (extract_info_from_page env (preprocess_image pg.2)).map fun m =>
        ⟨pyUpper m.routeID, m.locationNumber, m.storeName, doc.name, pg.1⟩
  else []

/-- The deduplication key of `drop_duplicates(subset=['RouteID',
'LocationNumber', 'PDF', 'PageNumber'])`. -/
def dedupKey (r : FullRec) : List Char × List Char × List Char × Nat :=
  (r.routeID, r.locationNumber, r.pdf, r.pageNumber)

/-- `DataFrame.drop_duplicates(..., keep='first')`: keep a row iff its key
has not been seen earlier. -/
def dedupGo (seen : List (List Char × List Char × List Char × Nat)) :
    List FullRec → List FullRec
  | [] => []
  | r :: rs =>
    if dedupKey r ∈ seen then dedupGo seen rs
    else r :: dedupGo (dedupKey r :: seen) rs

/-- Deduplication pass over the merged results (reader.py line 269). -/
def dedupKeepFirst (l : List FullRec) : List FullRec := dedupGo [] l

/-- `process_pdfs` result table (reader.py lines 262–273): worker outputs
(given in the arrival order of `imap_unordered`) are concatenated, then
deduplicated in one pass.  (The empty-merge branch builds an empty frame,
which coincides with deduplicating the empty list.) -/
def process_pdfs_table (outputs : List (List FullRec)) : List FullRec :=
  dedupKeepFirst outputs.flatten

/-- A row of `queries.csv` after `row.get(col, '')`: the raw `RouteID` and
`LocationNumber` field values (a missing column yields the empty string). -/
structure CsvRow where
  routeID : List Char
  locationNumber : List Char
deriving DecidableEq, Repr

/-- Validation of one CSV row (reader.py lines 318–325): strip both fields;
skip if either is empty; keep iff `re.fullmatch(r'\d{8}', ...)` and
`re.fullmatch(r'\d{4}', ...)` hold on the stripped values. -/
def validateRow (row : CsvRow) : Option (List Char × List Char) :=
  let r := pyStrip row.routeID
  let l := pyStrip row.locationNumber
  if r = [] ∨ l = [] then none
  else if r.length = 8 ∧ r.all Char.isDigit ∧ l.length = 4 ∧ l.all Char.isDigit then
    some (r, l)
  else none

/-- `read_queries_from_csv` (reader.py lines 312–329) over the parsed rows:
each row is validated independently; invalid rows are logged and skipped. -/
def read_queries_from_csv (rows : List CsvRow) : List (List Char × List Char) :=
  rows.filterMap validateRow

/-! ### Output-PDF naming (`extract_and_save_page`, reader.py lines 190–213) -/

/-- `f"{route_id} - {location_number}.pdf"`. -/
def baseName (routeId loc : List Char) : List Char :=
  routeId ++ lc " - " ++ loc ++ lc ".pdf"

/-- `f"{route_id} - {location_number} ({count}).pdf"`. -/
def suffixName (routeId loc : List Char) (count : Nat) : List Char :=
  routeId ++ lc " - " ++ loc ++ lc " (" ++ (Nat.repr count).data ++ lc ").pdf"

/-- The collision loop of `extract_and_save_page`: while the candidate name
exists in the output directory, move to the suffixed name for the current
`count` and increment.  `existing` is the set of file names already in
`matched_pages`; `fuel` bounds the iterations of the `while`. -/
def chooseLoop (existing : List (List Char)) (routeId loc : List Char) :
    Nat → List Char → Nat → List Char
  | count, path, fuel + 1 =>
    if path ∈ existing then
      chooseLoop existing routeId loc (count + 1) (suffixName routeId loc count) fuel
    else path
  | _, path, 0 => path

/-- The file name `extract_and_save_page` writes to, given the names
already present in the output directory. -/
def chooseName (existing : List (List Char)) (routeId loc : List Char) : List Char :=
  chooseLoop existing routeId loc 1 (baseName routeId loc) (existing.length + 2)

/-! ### `main` (reader.py lines 333–385) -/

/-- The run-time inputs `main` interacts with. -/
structure MainEnv where
  pdfDirExists : Bool
  csvExists : Bool
  csvRows : List CsvRow
  ocrEnv : OcrEnv
  docs : List Doc

/-- Observable milestones of a `main` run. -/
inductive Ev where
  | exitEv (code : Nat)
  | extractionWork (table : List FullRec)
  | saveResults
  | readQueries (queries : List (List Char × List Char))
  | searchExport
deriving DecidableEq, Repr

/-- `main` as a trace of milestones plus the process exit status, in source
order: directory check, CSV-presence check, `process_pdfs`, `save_results`,
`read_queries_from_csv`, then either `sys.exit(1)` on an empty query list
or `search_and_save` and a normal (zero-status) finish. -/
def mainRun (env : MainEnv) : List Ev × Nat :=
  if env.pdfDirExists = false then ([.exitEv 1], 1)
  else if env.csvExists = false then ([.exitEv 1], 1)
  else
    let table := process_pdfs_table (env.docs.map (extract_route_and_store_ids env.ocrEnv))
    let queries := read_queries_from_csv env.csvRows
    if queries = [] then
      ([.extractionWork table, .saveResults, .readQueries queries, .exitEv 1], 1)
    else
      ([.extractionWork table, .saveResults, .readQueries queries, .searchExport], 0)

/-- The text whose matches the route loop of `extract_info_from_page`
finally runs over: the first OCR pass when it contains a route match,
otherwise the 180°-rotated re-pass. -/
def effText (env : OcrEnv) (img : Img) : List Char :=
  let corrected := orientationStage (env.osd img) img
  let t1 := env.ocr corrected
  if route_id_findall t1 = [] then env.ocr (Img.rot corrected 180) else t1

/-! ### Concrete instances used by witnesses -/

/-- A page text carrying a route match and both kinds of store header. -/
def textBoth : List Char := lc "To 55 3333-Beta Route: 12345678 X-Dock WH: 4444-Alpha"

/-- Engine returning `textBoth` on every image; orientation detection
always fails. -/
def envBoth : OcrEnv := ⟨fun _ => textBoth, fun _ _ => .error []⟩

/-- A page text with a route match and a To header. -/
def textRot : List Char := lc "Route: 12345678 To 9 1234-Acme"

/-- Engine that reads `textRot` only on rotated images: the first pass sees
text without any route match. -/
def envRot : OcrEnv :=
  ⟨fun i =>
    match i with
    | .rot _ _ => textRot
    | _ => lc "no matches here",
   fun _ _ => .error []⟩

/-- A page text mentioning the same route twice alongside one X-Dock WH
header. -/
def textDup : List Char := lc "Route: 11111111 x Route: 11111111 X-Dock WH: 2222-Acme"

/-- Engine returning `textDup` on every image. -/
def envDup : OcrEnv := ⟨fun _ => textDup, fun _ _ => .error []⟩

/-- A one-page document rasterizing successfully. -/
def docDup : Doc := ⟨lc "a.pdf", [Img.page 0 1], true⟩

/-- The record `envDup`/`docDup` produce (twice). -/
def recDup : FullRec := ⟨lc "11111111", lc "2222", lc "Acme", lc "a.pdf", 1⟩

/-- Two records agreeing on the deduplication key but not on StoreName. -/
def recA : FullRec := ⟨lc "11111111", lc "2222", lc "Store A", lc "a.pdf", 1⟩

/-- See `recA`. -/
def recB : FullRec := ⟨lc "11111111", lc "2222", lc "Store B", lc "a.pdf", 1⟩

/-- A CSV row whose RouteID is not 8 digits. -/
def rowBad : CsvRow := ⟨lc "123", lc "1234"⟩

/-- A CSV row whose RouteID field carries a trailing blank around a valid
8-digit value. -/
def rowPad : CsvRow := ⟨lc "12345678 ", lc "1234"⟩

/-- A CSV row passing both format checks verbatim. -/
def rowGood : CsvRow := ⟨lc "12345678", lc "1234"⟩

/-- A run environment whose startup checks pass but whose query CSV holds
only an invalid row. -/
def envMainBad : MainEnv := ⟨true, true, [rowBad], envDup, []⟩

/-! ## Supporting lemmas -/

theorem toUpper_digit (c : Char) (h : c.isDigit = true) : c.toUpper = c := by
  simp only [Char.isDigit, Bool.and_eq_true, decide_eq_true_eq, ge_iff_le] at h
  have h2 : c.toNat ≤ 57 := UInt32.toNat_le_of_le (by norm_num [UInt32.size]) h.2
  have hno : ¬(c.toNat ≥ 97 ∧ c.toNat ≤ 122) := by omega
  simp [Char.toUpper, hno]

theorem routeTry_some {prev : Option Char} {cs cap rest : List Char}
    (h : routeTry prev cs = some (cap, rest)) :
    cap.length = 8 ∧ cap.all Char.isDigit = true := by
  unfold routeTry at h
  split at h
  · exact absurd h (by simp)
  · split at h
    · exact absurd h (by simp)
    · simp only at h
      split at h
      · simp only [Option.some.injEq, Prod.mk.injEq] at h
        rename_i hcond
        simp only [Bool.and_eq_true, decide_eq_true_eq] at hcond
        obtain ⟨⟨h1, h2⟩, _⟩ := hcond
        exact h.1 ▸ ⟨h1, h2⟩
      · exact absurd h (by simp)

theorem toTry_some {prev : Option Char} {cs loc name rest : List Char}
    (h : toTry prev cs = some ((loc, name), rest)) :
    loc.length = 4 ∧ loc.all Char.isDigit = true ∧ name ≠ [] := by
  unfold toTry at h
  split at h
  · exact absurd h (by simp)
  · split at h
    · exact absurd h (by simp)
    · split at h
      · exact absurd h (by simp)
      · split at h
        · exact absurd h (by simp)
        · split at h
          · exact absurd h (by simp)
          · split at h
            · exact absurd h (by simp)
            · split at h
              · exact absurd h (by simp)
              · split at h
                · exact absurd h (by simp)
                · simp only at h
                  split at h
                  · exact absurd h (by simp)
                  · split at h
                    · split at h
                      · exact absurd h (by simp)
                      · rename_i hcond hscrut r6 hdropeq hnmne
                        simp only [Option.some.injEq, Prod.mk.injEq] at h
                        obtain ⟨⟨hl, hn⟩, -⟩ := h
                        rw [Bool.not_eq_true, Bool.not_eq_false', Bool.and_eq_true,
                          decide_eq_true_eq] at hcond
                        exact ⟨hl ▸ hcond.1, hl ▸ hcond.2, hn ▸ hnmne⟩
                    · exact absurd h (by simp)

theorem xdockTry_some {prev : Option Char} {cs loc name rest : List Char}
    (h : xdockTry prev cs = some ((loc, name), rest)) :
    loc.length = 4 ∧ loc.all Char.isDigit = true ∧ name ≠ [] := by
  unfold xdockTry at h
  split at h
  · exact absurd h (by simp)
  · split at h
    · exact absurd h (by simp)
    · split at h
      · simp only at h
        split at h
        · exact absurd h (by simp)
        · split at h
          · split at h
            · exact absurd h (by simp)
            · rename_i hcond hscrut r6 hdropeq hnmne
              simp only [Option.some.injEq, Prod.mk.injEq] at h
              obtain ⟨⟨hl, hn⟩, -⟩ := h
              rw [Bool.not_eq_true, Bool.not_eq_false', Bool.and_eq_true,
                decide_eq_true_eq] at hcond
              exact ⟨hl ▸ hcond.1, hl ▸ hcond.2, hn ▸ hnmne⟩
          · exact absurd h (by simp)
      · exact absurd h (by simp)

theorem routeGo_mem {fuel : Nat} {prev : Option Char} {cs cap : List Char}
    (h : cap ∈ routeGo fuel prev cs) :
    cap.length = 8 ∧ cap.all Char.isDigit = true := by
  induction fuel generalizing prev cs with
  | zero => simp [routeGo] at h
  | succ n ih =>
    match cs with
    | [] => simp [routeGo] at h
    | c :: rest =>
      rw [routeGo] at h
      cases htry : routeTry prev (c :: rest) with
      | none => rw [htry] at h; exact ih h
      | some pr =>
        obtain ⟨cap', rest'⟩ := pr
        rw [htry] at h
        simp only [List.mem_cons] at h
        rcases h with h | h
        · exact h ▸ routeTry_some htry
        · exact ih h

theorem route_id_findall_mem {cs cap : List Char} (h : cap ∈ route_id_findall cs) :
    cap.length = 8 ∧ cap.all Char.isDigit = true :=
  routeGo_mem h

theorem pairGo_mem {try1 : Option Char → List Char → Option ((List Char × List Char) × List Char)}
    (htry : ∀ {prev : Option Char} {cs loc name rest : List Char},
      try1 prev cs = some ((loc, name), rest) →
      loc.length = 4 ∧ loc.all Char.isDigit = true ∧ name ≠ [])
    {fuel : Nat} {prev : Option Char} {cs : List Char} {p : List Char × List Char}
    (h : p ∈ pairGo try1 fuel prev cs) :
    p.1.length = 4 ∧ p.1.all Char.isDigit = true ∧ p.2 ≠ [] := by
  induction fuel generalizing prev cs with
  | zero => simp [pairGo] at h
  | succ n ih =>
    match cs with
    | [] => simp [pairGo] at h
    | c :: rest =>
      rw [pairGo] at h
      cases hx : try1 prev (c :: rest) with
      | none => rw [hx] at h; exact ih h
      | some pr =>
        obtain ⟨⟨loc, name⟩, rest'⟩ := pr
        rw [hx] at h
        simp only [List.mem_cons] at h
        rcases h with h | h
        · exact h ▸ htry hx
        · exact ih h

theorem to_findall_mem {cs : List Char} {p : List Char × List Char}
    (h : p ∈ to_findall cs) :
    p.1.length = 4 ∧ p.1.all Char.isDigit = true ∧ p.2 ≠ [] :=
  pairGo_mem (fun hx => toTry_some hx) h

theorem xdock_wh_findall_mem {cs : List Char} {p : List Char × List Char}
    (h : p ∈ xdock_wh_findall cs) :
    p.1.length = 4 ∧ p.1.all Char.isDigit = true ∧ p.2 ≠ [] :=
  pairGo_mem (fun hx => xdockTry_some hx) h

theorem filterMap_some_eq_map {α β : Type} (f : α → β) (l : List α) :
    l.filterMap (fun a => some (f a)) = l.map f := by
  induction l with
  | nil => rfl
  | cons a l ih => simp [List.filterMap_cons, ih]

theorem combineMatches_xdock {rm : List (List Char)} {tm xm : List (List Char × List Char)}
    {ln sn : List Char} {xs : List (List Char × List Char)}
    (hx : xm = (ln, sn) :: xs) (hln : ln ≠ []) (hsn : sn ≠ []) :
    combineMatches rm tm xm = rm.map (fun r => ⟨r, ln, cleanStoreName sn⟩) := by
  subst hx
  have hp : pickLocStore tm ((ln, sn) :: xs) = some (ln, sn) := rfl
  unfold combineMatches
  rw [hp, show combineOne (some (ln, sn))
        = (fun r => some (⟨r, ln, cleanStoreName sn⟩ : PageRec)) from ?_,
      filterMap_some_eq_map]
  funext r
  simp [combineOne, hln, hsn]

theorem combineMatches_to {rm : List (List Char)}
    {tm : List (List Char × List Char)} {ln sn : List Char}
    {ts : List (List Char × List Char)}
    (ht : tm = (ln, sn) :: ts) (hln : ln ≠ []) (hsn : sn ≠ []) :
    combineMatches rm tm [] = rm.map (fun r => ⟨r, ln, cleanStoreName sn⟩) := by
  subst ht
  have hp : pickLocStore ((ln, sn) :: ts) [] = some (ln, sn) := rfl
  unfold combineMatches
  rw [hp, show combineOne (some (ln, sn))
        = (fun r => some (⟨r, ln, cleanStoreName sn⟩ : PageRec)) from ?_,
      filterMap_some_eq_map]
  funext r
  simp [combineOne, hln, hsn]

theorem combineMatches_none (rm : List (List Char)) :
    combineMatches rm [] [] = [] := by
  have hp : pickLocStore [] [] = none := rfl
  unfold combineMatches
  rw [hp]
  induction rm with
  | nil => rfl
  | cons r rm ih => simp only [List.filterMap_cons, combineOne]; exact ih

/-! ## Claims C1 and C2 -/

theorem ne_nil_of_length_four {l : List Char} (h : l.length = 4) : l ≠ [] := by
  intro hl; rw [hl] at h; simp at h

/-- C1: for every route identifier match found on a page, the extractor pairs
it with location/store data by strict priority: if any X-Dock WH match exists
on the (effective) page text, every route match uses the first X-Dock WH
match's location number and store name, regardless of where the two headers
appear; otherwise, if any To match exists, the first To match's data is used;
otherwise the route match produces no record at all. -/
theorem claim_C1_priority_pairing (env : OcrEnv) (img : Img) :
    (∀ ln sn xs, xdock_wh_findall (effText env img) = (ln, sn) :: xs →
        extract_info_from_page env img
          = (route_id_findall (effText env img)).map
              (fun r => ⟨r, ln, cleanStoreName sn⟩))
  ∧ (xdock_wh_findall (effText env img) = [] →
      ∀ ln sn ts, to_findall (effText env img) = (ln, sn) :: ts →
        extract_info_from_page env img
          = (route_id_findall (effText env img)).map
              (fun r => ⟨r, ln, cleanStoreName sn⟩))
  ∧ (xdock_wh_findall (effText env img) = [] →
      to_findall (effText env img) = [] →
      extract_info_from_page env img = []) := by
  have heff : ∀ (h : List PageRec → Prop),
      h (combineMatches (route_id_findall (effText env img))
          (to_findall (effText env img)) (xdock_wh_findall (effText env img))) →
      h (extract_info_from_page env img) := by
    intro P hP
    unfold extract_info_from_page
    unfold effText at hP
    by_cases hr :
        route_id_findall (env.ocr (orientationStage (env.osd img) img)) = []
    · simpa [hr] using hP
    · simpa [hr] using hP
  refine ⟨?_, ?_, ?_⟩
  · intro ln sn xs hx
    have hmem : (ln, sn) ∈ xdock_wh_findall (effText env img) := by
      rw [hx]; exact List.mem_cons_self _ _
    obtain ⟨hlen, _, hne⟩ := xdock_wh_findall_mem hmem
    exact heff (fun l => l = _) (combineMatches_xdock hx (ne_nil_of_length_four hlen) hne)
  · intro hxe ln sn ts ht
    have hmem : (ln, sn) ∈ to_findall (effText env img) := by
      rw [ht]; exact List.mem_cons_self _ _
    obtain ⟨hlen, _, hne⟩ := to_findall_mem hmem
    refine heff (fun l => l = _) ?_
    rw [hxe]
    exact combineMatches_to ht (ne_nil_of_length_four hlen) hne
  · intro hxe hte
    refine heff (fun l => l = []) ?_
    rw [hxe, hte]
    exact combineMatches_none _

theorem claim_C1_witness :
    xdock_wh_findall (effText envBoth (Img.page 0 1)) = [(lc "4444", lc "Alpha")] ∧
    to_findall (effText envBoth (Img.page 0 1)) ≠ [] ∧
    extract_info_from_page envBoth (Img.page 0 1)
      = [⟨lc "12345678", lc "4444", cleanStoreName (lc "Alpha")⟩] := by
  refine ⟨by decide, by decide, ?_⟩
  rw [(claim_C1_priority_pairing envBoth (Img.page 0 1)).1 (lc "4444") (lc "Alpha") []
    (by decide)]
  decide

/-- C2: if and only if the first OCR pass finds no route identifier match,
the extractor rotates the image 180 degrees and repeats the recognition and
pattern pass exactly once; the page's final result set then equals the
rotated pass's matches exactly, with the first pass's text and To/X-Dock WH
matches discarded rather than merged (the result is a function of the
rotated text alone); when the first pass does find route matches, the
rotated image is never consulted. -/
theorem claim_C2_rotation_fallback (env : OcrEnv) (img : Img) :
    (route_id_findall (env.ocr (orientationStage (env.osd img) img)) = [] →
       extract_info_from_page env img
         = combineMatches
             (route_id_findall (env.ocr (Img.rot (orientationStage (env.osd img) img) 180)))
             (to_findall (env.ocr (Img.rot (orientationStage (env.osd img) img) 180)))
             (xdock_wh_findall (env.ocr (Img.rot (orientationStage (env.osd img) img) 180))))
  ∧ (route_id_findall (env.ocr (orientationStage (env.osd img) img)) ≠ [] →
       extract_info_from_page env img
         = combineMatches
             (route_id_findall (env.ocr (orientationStage (env.osd img) img)))
             (to_findall (env.ocr (orientationStage (env.osd img) img)))
             (xdock_wh_findall (env.ocr (orientationStage (env.osd img) img))))
  ∧ (∀ env' : OcrEnv, env'.osd img = env.osd img →
       env'.ocr (Img.rot (orientationStage (env.osd img) img) 180)
         = env.ocr (Img.rot (orientationStage (env.osd img) img) 180) →
       route_id_findall (env.ocr (orientationStage (env.osd img) img)) = [] →
       route_id_findall (env'.ocr (orientationStage (env.osd img) img)) = [] →
       extract_info_from_page env' img = extract_info_from_page env img)
  ∧ (∀ env' : OcrEnv, env'.osd img = env.osd img →
       env'.ocr (orientationStage (env.osd img) img)
         = env.ocr (orientationStage (env.osd img) img) →
       route_id_findall (env.ocr (orientationStage (env.osd img) img)) ≠ [] →
       extract_info_from_page env' img = extract_info_from_page env img) := by
  refine ⟨fun hr => by simp only [extract_info_from_page, if_pos hr],
    fun hr => by simp only [extract_info_from_page, if_neg hr], ?_, ?_⟩
  · intro env' hosd hocr hr hr'
    simp only [extract_info_from_page, hosd]
    rw [if_pos hr', if_pos hr, hocr]
  · intro env' hosd hocr hr
    simp only [extract_info_from_page, hosd, hocr]
    simp only [if_neg hr]

theorem claim_C2_witness :
    route_id_findall (envRot.ocr (orientationStage (envRot.osd (Img.page 0 1)) (Img.page 0 1))) = [] ∧
    extract_info_from_page envRot (Img.page 0 1)
      = [⟨lc "12345678", lc "1234", lc "Acme"⟩] := by
  refine ⟨by decide, ?_⟩
  rw [(claim_C2_rotation_fallback envRot (Img.page 0 1)).1 (by decide)]
  decide

/-! ## Claims C3 through C10 -/

theorem phoneMatchAt_cons_succ (c : Char) (rest : List Char) (j : Nat) :
    phoneMatchAt (c :: rest) (j + 1) = phoneMatchAt rest j := rfl

theorem phoneIdx_some {cs : List Char} {i : Nat} (h : phoneIdx cs = some i) :
    phoneMatchAt cs i = true ∧ ∀ j, j < i → phoneMatchAt cs j = false := by
  induction cs generalizing i with
  | nil => simp [phoneIdx] at h
  | cons c rest ih =>
    rw [phoneIdx] at h
    split at h
    · rename_i hc
      simp only [Option.some.injEq] at h
      subst h
      exact ⟨by simp [phoneMatchAt, hc], fun j hj => absurd hj (by omega)⟩
    · rename_i hc
      cases hrec : phoneIdx rest with
      | none => rw [hrec] at h; simp at h
      | some k =>
        rw [hrec] at h
        simp only [Option.map_some', Option.some.injEq] at h
        subst h
        obtain ⟨h1, h2⟩ := ih hrec
        refine ⟨h1, fun j hj => ?_⟩
        match j with
        | 0 =>
          simp only [phoneMatchAt, List.drop_zero]
          rw [Bool.eq_false_iff]
          intro hx
          exact hc (by simpa using hx)
        | j + 1 =>
          rw [phoneMatchAt_cons_succ]
          exact h2 j (by omega)

theorem phoneIdx_none {cs : List Char} (h : phoneIdx cs = none) :
    ∀ j, phoneMatchAt cs j = false := by
  induction cs with
  | nil => intro j; simp [phoneMatchAt]
  | cons c rest ih =>
    rw [phoneIdx] at h
    split at h
    · simp at h
    · rename_i hc
      intro j
      match j with
      | 0 =>
        simp only [phoneMatchAt, List.drop_zero]
        rw [Bool.eq_false_iff]
        intro hx
        exact hc (by simpa using hx)
      | j + 1 =>
        rw [phoneMatchAt_cons_succ]
        have : phoneIdx rest = none := by
          cases hrec : phoneIdx rest with
          | none => rfl
          | some k => rw [hrec] at h; simp at h
        exact ih this j

/-- C3 counterexample: the claim "store names are truncated at the first
occurrence of the literal substring Phone case-insensitively" fails on the
captured store name "Acme Store phone 555": the cleaning step leaves it
unchanged instead of producing "Acme Store", because the split pattern
requires the case-sensitive literal Phone. -/
theorem claim_C3_counterexample :
    cleanStoreName (lc "Acme Store phone 555") = lc "Acme Store phone 555" ∧
    cleanStoreName (lc "Acme Store phone 555") ≠ lc "Acme Store" := by
  constructor
  · decide
  · decide

/-- C3 amended: the cleaning step truncates the captured store name at the
first (leftmost) occurrence of a whitespace character immediately followed
by the case-sensitive literal Phone, removing the whitespace and everything
after it, and trims surrounding whitespace; when no such occurrence exists
the name is only trimmed. -/
theorem claim_C3_phone_truncation (cs : List Char) :
    ((∀ j, phoneMatchAt cs j = false) → cleanStoreName cs = pyStrip cs)
  ∧ (∀ i, phoneMatchAt cs i = true → (∀ j, j < i → phoneMatchAt cs j = false) →
      cleanStoreName cs = pyStrip (cs.take i)) := by
  constructor
  · intro hall
    unfold cleanStoreName
    cases h : phoneIdx cs with
    | none => rfl
    | some k =>
      have := (phoneIdx_some h).1
      rw [hall k] at this
      exact absurd this (by simp)
  · intro i hi hmin
    unfold cleanStoreName
    cases h : phoneIdx cs with
    | none =>
      have := phoneIdx_none h i
      rw [hi] at this
      exact absurd this (by simp)
    | some k =>
      obtain ⟨hk, hkmin⟩ := phoneIdx_some h
      have hik : i = k := by
        rcases Nat.lt_trichotomy i k with hlt | heq | hgt
        · have := hkmin i hlt; rw [hi] at this; exact absurd this (by simp)
        · exact heq
        · have := hmin k hgt; rw [hk] at this; exact absurd this (by simp)
      rw [hik]

theorem claim_C3_witness :
    phoneMatchAt (lc "Acme Store Phone: 555-1234") 10 = true ∧
    cleanStoreName (lc "Acme Store Phone: 555-1234") = lc "Acme Store" := by
  refine ⟨by decide, ?_⟩
  rw [(claim_C3_phone_truncation (lc "Acme Store Phone: 555-1234")).2 10
    (by decide) (by decide)]
  decide


/-- C4: the orientation corrector invokes the engine's orientation-detection
call at most 3 times with a fixed 1-second delay after each failed attempt,
returns the first successful result (after k failures it has made exactly
k + 1 calls), and when all 3 attempts fail it surfaces the failure to its
caller by raising, upon which the caller proceeds with the uncorrected
image instead of aborting the page. -/
theorem claim_C4_osd_retry (osd : Nat → Except (List Char) (List Char)) (img : Img) :
    (robust_image_to_osd osd 3 1).2.1 ≤ 3
  ∧ (∀ d ∈ (robust_image_to_osd osd 3 1).2.2, d = 1)
  ∧ (∀ k t, k < 3 → (∀ j, j < k → ∀ u, osd j ≠ .ok u) → osd k = .ok t →
      (robust_image_to_osd osd 3 1).1 = .ok t ∧ (robust_image_to_osd osd 3 1).2.1 = k + 1)
  ∧ ((∀ j, j < 3 → ∀ u, osd j ≠ .ok u) →
      (robust_image_to_osd osd 3 1).1 = .error .nameError ∧
      orientationStage osd img = img) := by
  have hget : ∀ (j : Nat), (∀ u, osd j ≠ .ok u) → ∃ e, osd j = .error e := by
    intro j hj
    cases hx : osd j with
    | ok u => exact absurd hx (hj u)
    | error e => exact ⟨e, rfl⟩
  refine ⟨?_, ?_, ?_, ?_⟩
  · rcases h0 : osd 0 with e0 | t0 <;> rcases h1 : osd 1 with e1 | t1 <;>
      rcases h2 : osd 2 with e2 | t2 <;>
      simp [robust_image_to_osd, robustGo, h0, h1, h2]
  · rcases h0 : osd 0 with e0 | t0 <;> rcases h1 : osd 1 with e1 | t1 <;>
      rcases h2 : osd 2 with e2 | t2 <;>
      simp [robust_image_to_osd, robustGo, h0, h1, h2]
  · intro k t hk hprev hok
    interval_cases k
    · unfold robust_image_to_osd robustGo
      rw [hok]
      exact ⟨rfl, rfl⟩
    · obtain ⟨e0, h0⟩ := hget 0 (hprev 0 (by omega))
      unfold robust_image_to_osd robustGo
      rw [h0]
      simp only
      rw [robustGo, hok]
      exact ⟨rfl, rfl⟩
    · obtain ⟨e0, h0⟩ := hget 0 (hprev 0 (by omega))
      obtain ⟨e1, h1⟩ := hget 1 (hprev 1 (by omega))
      unfold robust_image_to_osd robustGo
      rw [h0]
      simp only
      rw [robustGo, h1]
      simp only
      rw [robustGo, hok]
      exact ⟨rfl, rfl⟩
  · intro hall
    obtain ⟨e0, h0⟩ := hget 0 (hall 0 (by omega))
    obtain ⟨e1, h1⟩ := hget 1 (hall 1 (by omega))
    obtain ⟨e2, h2⟩ := hget 2 (hall 2 (by omega))
    have hres : (robust_image_to_osd osd 3 1).1 = .error .nameError := by
      unfold robust_image_to_osd robustGo
      rw [h0]
      simp only
      rw [robustGo, h1]
      simp only
      rw [robustGo, h2]
      rfl
    refine ⟨hres, ?_⟩
    unfold orientationStage
    rw [hres]

theorem claim_C4_witness :
    (∀ j, j < 3 → ∀ u, (fun _ => (Except.error (lc "engine failure") :
        Except (List Char) (List Char))) j ≠ .ok u) ∧
    (robust_image_to_osd (fun _ => .error (lc "engine failure")) 3 1).1
      = .error .nameError ∧
    orientationStage (fun _ => .error (lc "engine failure")) (Img.page 0 1) = Img.page 0 1 ∧
    (robust_image_to_osd (fun _ => .error (lc "engine failure")) 3 1).2.1 ≤ 3 := by
  refine ⟨by intro j hj u h; exact absurd h (by simp), ?_⟩
  obtain ⟨h1, h2⟩ := (claim_C4_osd_retry (fun _ => .error (lc "engine failure"))
    (Img.page 0 1)).2.2.2 (by intro j hj u h; exact absurd h (by simp))
  exact ⟨h1, h2, (claim_C4_osd_retry (fun _ => .error (lc "engine failure")) (Img.page 0 1)).1⟩


/-- C5 counterexample: with the PDF directory and the query CSV both present
but zero valid queries parsed, the run does exit with status 1, yet its very
first milestone is the extraction work: termination does not happen before
extraction begins, contradicting the claim. -/
theorem claim_C5_counterexample :
    envMainBad.pdfDirExists = true ∧ envMainBad.csvExists = true ∧
    read_queries_from_csv envMainBad.csvRows = [] ∧
    (mainRun envMainBad).2 = 1 ∧
    (mainRun envMainBad).1.head? = some (.extractionWork []) := by
  exact ⟨rfl, rfl, by decide, by decide, by decide⟩

/-- C5 amended: a missing PDF directory or a missing query CSV terminates the
process with nonzero status before any extraction work; zero valid parsed
queries also terminates with nonzero status, but only after extraction and
result saving have completed; otherwise the process exits 0, and the exit
status is independent of the documents and engine behaviour (per-item
failures never affect it). -/
theorem claim_C5_exit_behavior (env : MainEnv) :
    (env.pdfDirExists = false → mainRun env = ([.exitEv 1], 1))
  ∧ (env.pdfDirExists = true → env.csvExists = false → mainRun env = ([.exitEv 1], 1))
  ∧ (env.pdfDirExists = true → env.csvExists = true →
      read_queries_from_csv env.csvRows = [] →
      (mainRun env).2 = 1 ∧
      (mainRun env).1 = [.extractionWork (process_pdfs_table (env.docs.map
          (extract_route_and_store_ids env.ocrEnv))), .saveResults,
        .readQueries [], .exitEv 1])
  ∧ (env.pdfDirExists = true → env.csvExists = true →
      read_queries_from_csv env.csvRows ≠ [] → (mainRun env).2 = 0)
  ∧ (∀ docs' ocr',
      (mainRun { env with docs := docs', ocrEnv := ocr' }).2 = (mainRun env).2) := by
  refine ⟨?_, ?_, ?_, ?_, ?_⟩
  · intro h1; simp [mainRun, h1]
  · intro h1 h2; simp [mainRun, h1, h2]
  · intro h1 h2 h3; simp [mainRun, h1, h2, h3]
  · intro h1 h2 h3; simp [mainRun, h1, h2, h3]
  · intro docs' ocr'
    by_cases h1 : env.pdfDirExists = false
    · simp [mainRun, h1]
    · by_cases h2 : env.csvExists = false
      · simp [mainRun, h1, h2]
      · by_cases h3 : read_queries_from_csv env.csvRows = []
        · simp [mainRun, h1, h2, h3]
        · simp [mainRun, h1, h2, h3]

theorem claim_C5_witness :
    mainRun ⟨false, true, [], envDup, []⟩ = ([.exitEv 1], 1) ∧
    (mainRun envMainBad).2 = 1 := by
  exact ⟨(claim_C5_exit_behavior _).1 rfl,
    ((claim_C5_exit_behavior envMainBad).2.2.1 rfl rfl (by decide)).1⟩

/-- C8 counterexample: the row with RouteID field "12345678 " (trailing
blank) is included in the parsed query list although the field is not
exactly 8 decimal digits, refuting the claim's "only if" direction. -/
theorem claim_C8_counterexample :
    read_queries_from_csv [rowPad] = [(lc "12345678", lc "1234")] ∧
    ¬(rowPad.routeID.length = 8 ∧ rowPad.routeID.all Char.isDigit = true) := by
  exact ⟨by decide, by decide⟩

/-- C8 amended: a CSV row is included in the parsed query list if and only
if, after stripping surrounding whitespace, its RouteID is exactly 8 decimal
digits and its LocationNumber exactly 4 decimal digits; a failing row is
excluded without affecting the parsing of the other rows (parsing is
row-local and total). -/
theorem claim_C8_query_validation (rows : List CsvRow) (row : CsvRow) :
    (read_queries_from_csv (rows ++ [row])
       = read_queries_from_csv rows ++ read_queries_from_csv [row])
  ∧ ((pyStrip row.routeID).length = 8 → (pyStrip row.routeID).all Char.isDigit = true →
      (pyStrip row.locationNumber).length = 4 →
      (pyStrip row.locationNumber).all Char.isDigit = true →
      read_queries_from_csv [row] = [(pyStrip row.routeID, pyStrip row.locationNumber)])
  ∧ (¬((pyStrip row.routeID).length = 8 ∧ (pyStrip row.routeID).all Char.isDigit = true ∧
        (pyStrip row.locationNumber).length = 4 ∧
        (pyStrip row.locationNumber).all Char.isDigit = true) →
      read_queries_from_csv [row] = []) := by
  refine ⟨List.filterMap_append _ _ _, ?_, ?_⟩
  · intro h1 h2 h3 h4
    have hr : ¬(pyStrip row.routeID = [] ∨ pyStrip row.locationNumber = []) := by
      rintro (h | h)
      · rw [h] at h1; simp at h1
      · rw [h] at h3; simp at h3
    have hv : validateRow row = some (pyStrip row.routeID, pyStrip row.locationNumber) := by
      unfold validateRow
      rw [if_neg hr, if_pos ⟨h1, h2, h3, h4⟩]
    simp [read_queries_from_csv, List.filterMap_cons, hv]
  · intro hno
    have hv : validateRow row = none := by
      unfold validateRow
      by_cases he : pyStrip row.routeID = [] ∨ pyStrip row.locationNumber = []
      · rw [if_pos he]
      · rw [if_neg he, if_neg hno]
    simp [read_queries_from_csv, List.filterMap_cons, hv]

theorem claim_C8_witness :
    read_queries_from_csv ([rowBad] ++ [rowGood]) = [(lc "12345678", lc "1234")] := by
  rw [(claim_C8_query_validation [rowBad] rowGood).1,
    (claim_C8_query_validation [] rowBad).2.2 (by decide),
    (claim_C8_query_validation [] rowGood).2.1 (by decide) (by decide) (by decide) (by decide)]
  decide


theorem dedupGo_subset {seen : List (List Char × List Char × List Char × Nat)}
    {l : List FullRec} {t : FullRec} (h : t ∈ dedupGo seen l) : t ∈ l := by
  induction l generalizing seen with
  | nil => simp [dedupGo] at h
  | cons r rs ih =>
    rw [dedupGo] at h
    split at h
    · exact List.mem_cons_of_mem _ (ih h)
    · rcases List.mem_cons.mp h with h | h
      · exact h ▸ List.mem_cons_self _ _
      · exact List.mem_cons_of_mem _ (ih h)

theorem dedupGo_keys_nodup {seen : List (List Char × List Char × List Char × Nat)}
    {l : List FullRec} :
    ((dedupGo seen l).map dedupKey).Nodup ∧
    ∀ k ∈ (dedupGo seen l).map dedupKey, k ∉ seen := by
  induction l generalizing seen with
  | nil => simp [dedupGo]
  | cons r rs ih =>
    rw [dedupGo]
    split
    · exact ih
    · rename_i hns
      obtain ⟨ih1, ih2⟩ := @ih (dedupKey r :: seen)
      refine ⟨?_, ?_⟩
      · simp only [List.map_cons, List.nodup_cons]
        refine ⟨fun hmem => ?_, ih1⟩
        exact ih2 _ hmem (List.mem_cons_self _ _)
      · intro k hk
        simp only [List.map_cons, List.mem_cons] at hk
        rcases hk with hk | hk
        · exact hk ▸ hns
        · have := ih2 _ hk
          intro hks
          exact this (List.mem_cons_of_mem _ hks)

theorem dedupGo_repr {seen : List (List Char × List Char × List Char × Nat)}
    {l : List FullRec} {r : FullRec} (hr : r ∈ l) (hs : dedupKey r ∉ seen) :
    ∃ t ∈ dedupGo seen l, dedupKey t = dedupKey r := by
  induction l generalizing seen with
  | nil => simp at hr
  | cons a rs ih =>
    rw [dedupGo]
    rcases List.mem_cons.mp hr with hr | hr
    · subst hr
      rw [if_neg hs]
      exact ⟨r, List.mem_cons_self _ _, rfl⟩
    · split
      · exact ih hr hs
      · by_cases hk : dedupKey r = dedupKey a
        · exact ⟨a, List.mem_cons_self _ _, hk.symm⟩
        · obtain ⟨t, ht, hkt⟩ := ih hr
            (by intro hmem
                rcases List.mem_cons.mp hmem with h | h
                · exact hk h
                · exact hs h)
          exact ⟨t, List.mem_cons_of_mem _ ht, hkt⟩

theorem dedupGo_first_mem {seen : List (List Char × List Char × List Char × Nat)}
    {pre post : List FullRec} {a : FullRec}
    (hpre : ∀ x ∈ pre, dedupKey x ≠ dedupKey a) (hs : dedupKey a ∉ seen) :
    a ∈ dedupGo seen (pre ++ a :: post) := by
  induction pre generalizing seen with
  | nil =>
    rw [List.nil_append, dedupGo, if_neg hs]
    exact List.mem_cons_self _ _
  | cons x pre ih =>
    rw [List.cons_append, dedupGo]
    split
    · exact ih (fun y hy => hpre y (List.mem_cons_of_mem _ hy)) hs
    · refine List.mem_cons_of_mem _
        (ih (fun y hy => hpre y (List.mem_cons_of_mem _ hy)) ?_)
      simp only [List.mem_cons]
      rintro (h | h)
      · exact hpre x (List.mem_cons_self _ _) h.symm
      · exact hs h

/-- C6: the final result table has at most one row per (RouteID,
LocationNumber, PDF, PageNumber) key: its key list is duplicate-free, every
merged record keeps exactly one representative row with its key, every table
row comes from the merged worker outputs, and the deduplication is the batch
driver's single pass over the complete merged set, not the field extractor's
(which demonstrably emits duplicate-keyed records on one page). -/
theorem claim_C6_dedup (outputs : List (List FullRec)) :
    ((process_pdfs_table outputs).map dedupKey).Nodup
  ∧ (∀ r ∈ outputs.flatten, ∃ t ∈ process_pdfs_table outputs, dedupKey t = dedupKey r)
  ∧ (∀ t ∈ process_pdfs_table outputs, t ∈ outputs.flatten)
  ∧ extract_route_and_store_ids envDup docDup = [recDup, recDup]
  ∧ process_pdfs_table [extract_route_and_store_ids envDup docDup] = [recDup] := by
  refine ⟨(dedupGo_keys_nodup).1, ?_, ?_, by decide, by decide⟩
  · intro r hr
    exact dedupGo_repr hr (by simp)
  · intro t ht
    exact dedupGo_subset ht

theorem claim_C6_witness :
    ((process_pdfs_table [[recDup], [recDup]]).map dedupKey).Nodup ∧
    (∃ t ∈ process_pdfs_table [[recDup], [recDup]], dedupKey t = dedupKey recDup) ∧
    (∀ t ∈ process_pdfs_table [[recDup], [recDup]], t ∈ [[recDup], [recDup]].flatten) := by
  refine ⟨(claim_C6_dedup [[recDup], [recDup]]).1,
    (claim_C6_dedup [[recDup], [recDup]]).2.1 recDup (by decide),
    (claim_C6_dedup [[recDup], [recDup]]).2.2.1⟩

/-- C10: the deduplication key excludes StoreName, so when two merged
records agree on (RouteID, LocationNumber, PDF, PageNumber) but carry
different StoreName values, the one arriving first in merge order is kept in
the final table and the later one is discarded. -/
theorem claim_C10_first_wins (outputs : List (List FullRec)) (pre mid post : List FullRec)
    (a b : FullRec) (hj : outputs.flatten = pre ++ a :: (mid ++ b :: post))
    (hk : dedupKey a = dedupKey b) (hsn : a.storeName ≠ b.storeName)
    (hpre : ∀ x ∈ pre, dedupKey x ≠ dedupKey a) :
    a ∈ process_pdfs_table outputs ∧ b ∉ process_pdfs_table outputs := by
  have hmem : a ∈ process_pdfs_table outputs := by
    unfold process_pdfs_table dedupKeepFirst
    rw [hj]
    exact dedupGo_first_mem hpre (by simp)
  refine ⟨hmem, fun hb => ?_⟩
  have hne : a ≠ b := fun h => hsn (h ▸ rfl)
  have hnd : ((process_pdfs_table outputs).map dedupKey).Nodup := (dedupGo_keys_nodup).1
  exact hne (List.inj_on_of_nodup_map hnd hmem hb hk)

theorem claim_C10_witness :
    recA ∈ process_pdfs_table [[recA], [recB]] ∧
    recB ∉ process_pdfs_table [[recA], [recB]] := by
  exact claim_C10_first_wins [[recA], [recB]] [] [] [] recA recB rfl (by decide)
    (by decide) (by intro x hx; simp at hx)


theorem chooseLoop_free {existing : List (List Char)} {routeId loc path : List Char}
    (h : path ∉ existing) (count fuel : Nat) :
    chooseLoop existing routeId loc count path fuel = path := by
  cases fuel with
  | zero => rfl
  | succ n => rw [chooseLoop, if_neg h]

theorem chooseLoop_run {existing : List (List Char)} {routeId loc : List Char} :
    ∀ (d count : Nat) (path : List Char) (fuel : Nat),
      d + 1 ≤ fuel → path ∈ existing →
      (∀ j, count ≤ j → j < count + d → suffixName routeId loc j ∈ existing) →
      suffixName routeId loc (count + d) ∉ existing →
      chooseLoop existing routeId loc count path fuel
        = suffixName routeId loc (count + d) := by
  intro d
  induction d with
  | zero =>
    intro count path fuel hfuel hpath _ hfree
    match fuel, hfuel with
    | f + 1, _ =>
      rw [chooseLoop, if_pos hpath]
      simpa using chooseLoop_free (by simpa using hfree) (count + 1) f
  | succ d ih =>
    intro count path fuel hfuel hpath htaken hfree
    match fuel, hfuel with
    | f + 1, hf =>
      rw [chooseLoop, if_pos hpath]
      have h1 : suffixName routeId loc count ∈ existing :=
        htaken count (Nat.le_refl _) (by omega)
      have hrun := ih (count + 1) (suffixName routeId loc count) f (by omega) h1
        (fun j hj1 hj2 => htaken j (by omega) (by omega))
        (by rw [show count + 1 + d = count + (d + 1) from by omega]; exact hfree)
      rw [hrun, show count + 1 + d = count + (d + 1) from by omega]

/-- C7: the exported page is written to "{RouteID} - {LocationNumber}.pdf";
if that name is taken, a numeric suffix " (n)" is inserted before the
extension with n starting at 1 and incrementing until a free name is found
(in particular a second identical query yields the " (1)" name instead of
overwriting). -/
theorem claim_C7_collision_naming (existing : List (List Char)) (routeId loc : List Char) :
    (baseName routeId loc ∉ existing →
      chooseName existing routeId loc = baseName routeId loc)
  ∧ (∀ k, 1 ≤ k → k ≤ existing.length + 1 → baseName routeId loc ∈ existing →
      (∀ j, 1 ≤ j → j < k → suffixName routeId loc j ∈ existing) →
      suffixName routeId loc k ∉ existing →
      chooseName existing routeId loc = suffixName routeId loc k) := by
  constructor
  · intro h; exact chooseLoop_free h _ _
  · intro k hk1 hk2 hbase htaken hfree
    unfold chooseName
    have hrun := chooseLoop_run (k - 1) 1 (baseName routeId loc) (existing.length + 2)
      (by omega) hbase (fun j hj1 hj2 => htaken j hj1 (by omega))
      (by rw [show 1 + (k - 1) = k from by omega]; exact hfree)
    rw [hrun, show 1 + (k - 1) = k from by omega]

theorem claim_C7_witness :
    chooseName [] (lc "12345678") (lc "1234") = baseName (lc "12345678") (lc "1234") ∧
    chooseName [baseName (lc "12345678") (lc "1234")] (lc "12345678") (lc "1234")
      = suffixName (lc "12345678") (lc "1234") 1 ∧
    suffixName (lc "12345678") (lc "1234") 1 = lc "12345678 - 1234 (1).pdf" := by
  refine ⟨(claim_C7_collision_naming [] _ _).1 (by decide),
    (claim_C7_collision_naming [baseName (lc "12345678") (lc "1234")] _ _).2 1
      (by omega) (by decide) (by decide) (by intro j h1 h2; omega) (by decide),
    by decide⟩

theorem pickLocStore_mem {tm xm : List (List Char × List Char)} {ln sn : List Char}
    (h : pickLocStore tm xm = some (ln, sn)) :
    (ln, sn) ∈ tm ∨ (ln, sn) ∈ xm := by
  unfold pickLocStore at h
  match xm, h with
  | x :: xs, h =>
    simp only [Option.some.injEq] at h
    subst h
    exact Or.inr (List.mem_cons_self _ _)
  | [], h =>
    match tm, h with
    | t :: ts, h =>
      simp only [Option.some.injEq] at h
      subst h
      exact Or.inl (List.mem_cons_self _ _)

theorem combineMatches_mem {rm : List (List Char)} {tm xm : List (List Char × List Char)}
    {m : PageRec} (h : m ∈ combineMatches rm tm xm) :
    ∃ r ∈ rm, ∃ ln sn, pickLocStore tm xm = some (ln, sn) ∧
      m = ⟨r, ln, cleanStoreName sn⟩ := by
  unfold combineMatches at h
  rw [List.mem_filterMap] at h
  obtain ⟨r, hr, hcomb⟩ := h
  cases hp : pickLocStore tm xm with
  | none => rw [hp] at hcomb; exact absurd hcomb (by simp [combineOne])
  | some p =>
    obtain ⟨ln, sn⟩ := p
    rw [hp] at hcomb
    simp only [combineOne] at hcomb
    split at hcomb
    · exact absurd hcomb (by simp)
    · exact ⟨r, hr, ln, sn, rfl, (Option.some.inj hcomb).symm⟩

theorem combine_format {t : List Char} {m : PageRec}
    (h : m ∈ combineMatches (route_id_findall t) (to_findall t) (xdock_wh_findall t)) :
    m.routeID.length = 8 ∧ m.routeID.all Char.isDigit = true ∧
    m.locationNumber.length = 4 ∧ m.locationNumber.all Char.isDigit = true := by
  obtain ⟨r, hr, ln, sn, hp, hm⟩ := combineMatches_mem h
  obtain ⟨h8, hd8⟩ := route_id_findall_mem hr
  have hln : ln.length = 4 ∧ ln.all Char.isDigit = true := by
    rcases pickLocStore_mem hp with hmem | hmem
    · obtain ⟨a, b, -⟩ := to_findall_mem hmem; exact ⟨a, b⟩
    · obtain ⟨a, b, -⟩ := xdock_wh_findall_mem hmem; exact ⟨a, b⟩
  subst hm
  exact ⟨h8, hd8, hln.1, hln.2⟩

theorem extract_info_format {env : OcrEnv} {img : Img} {m : PageRec}
    (h : m ∈ extract_info_from_page env img) :
    m.routeID.length = 8 ∧ m.routeID.all Char.isDigit = true ∧
    m.locationNumber.length = 4 ∧ m.locationNumber.all Char.isDigit = true := by
  simp only [extract_info_from_page] at h
  split at h
  · exact combine_format h
  · exact combine_format h

theorem pyUpper_digit_id {cs : List Char} (h : cs.all Char.isDigit = true) :
    pyUpper cs = cs := by
  unfold pyUpper
  rw [List.all_eq_true] at h
  rw [List.map_congr_left (fun c hc => toUpper_digit c (h c hc))]
  simp

theorem extract_route_format {env : OcrEnv} {doc : Doc} {r : FullRec}
    (h : r ∈ extract_route_and_store_ids env doc) :
    r.routeID.length = 8 ∧ r.routeID.all Char.isDigit = true ∧
    r.locationNumber.length = 4 ∧ r.locationNumber.all Char.isDigit = true := by
  unfold extract_route_and_store_ids at h
  split at h
  · rw [List.mem_flatMap] at h
    obtain ⟨pg, hpg, hr2⟩ := h
    rw [List.mem_map] at hr2
    obtain ⟨m, hm, hr3⟩ := hr2
    obtain ⟨a8, ad, b4, bd⟩ := extract_info_format hm
    subst hr3
    refine ⟨?_, ?_, b4, bd⟩
    · simpa [pyUpper] using a8
    · rw [pyUpper_digit_id ad]; exact ad
  · exact absurd h (by simp)

/-- C9: every extraction result produced by the pipeline, and hence every
row of the final result table, has a RouteID that is exactly an 8-digit
numeric string and a LocationNumber that is exactly a 4-digit numeric
string, for every engine behaviour, image, document and input text. -/
theorem claim_C9_format_invariant :
    (∀ (env : OcrEnv) (img : Img), ∀ m ∈ extract_info_from_page env img,
        m.routeID.length = 8 ∧ m.routeID.all Char.isDigit = true ∧
        m.locationNumber.length = 4 ∧ m.locationNumber.all Char.isDigit = true)
  ∧ (∀ (env : OcrEnv) (doc : Doc), ∀ r ∈ extract_route_and_store_ids env doc,
        r.routeID.length = 8 ∧ r.routeID.all Char.isDigit = true ∧
        r.locationNumber.length = 4 ∧ r.locationNumber.all Char.isDigit = true)
  ∧ (∀ (env : OcrEnv) (docs : List Doc),
      ∀ r ∈ process_pdfs_table (docs.map (extract_route_and_store_ids env)),
        r.routeID.length = 8 ∧ r.routeID.all Char.isDigit = true ∧
        r.locationNumber.length = 4 ∧ r.locationNumber.all Char.isDigit = true) := by
  refine ⟨fun env img m hm => extract_info_format hm,
    fun env doc r hr => extract_route_format hr, ?_⟩
  intro env docs r hr
  have hflat : r ∈ (docs.map (extract_route_and_store_ids env)).flatten :=
    dedupGo_subset hr
  rw [List.mem_flatten] at hflat
  obtain ⟨out, hout, hrout⟩ := hflat
  rw [List.mem_map] at hout
  obtain ⟨doc, hdoc, hout2⟩ := hout
  exact extract_route_format (hout2 ▸ hrout)

theorem claim_C9_witness :
    recDup ∈ extract_route_and_store_ids envDup docDup ∧
    recDup.routeID.length = 8 ∧ recDup.routeID.all Char.isDigit = true ∧
    recDup.locationNumber.length = 4 ∧ recDup.locationNumber.all Char.isDigit = true := by
  exact ⟨by decide, claim_C9_format_invariant.2.1 envDup docDup recDup (by decide)⟩

end PdfReader
